import Mathlib

/-!
Shallow embedding of the quiz engine of the vocab repository
(`src/scripts/quizEngine.js`, class `QuizEngine`).

Modelling conventions:
* JavaScript objects become Lean structures; the mutable `this` of the class
  becomes explicit state passing of a `QuizEngine` value.
* `Math.random()`-driven choices are parameters: the random index used by
  `getNextWord` is a `Nat` (taken `% length` so any value is a valid draw),
  and each Fisher–Yates shuffle receives a function `Nat → Nat` giving, for
  loop position `i`, the raw draw whose value `% (i+1)` is the swap index `j`
  (exactly the range `Math.floor(Math.random() * (i + 1))` produces).
* Methods that `throw` (`initialize`, `submitAnswer`) return `Option`, with
  `none` for the thrown `Error`.
* `this.currentWord` in the source is an object reference aliased into
  `this.vocabulary`; we model it as `CurRef.attached i` (index into the
  current vocabulary array) while the alias is live, and `CurRef.detached w`
  once `initialize`/`importState` replace `this.vocabulary` with a new array,
  after which mutations through the reference no longer touch the vocabulary.
* `this.answeredWords` (a JS `Set` of strings) is a duplicate-free list in
  insertion order.
-/

structure VocabItem where
  french : String
  english : String
  mastered : Bool
deriving DecidableEq, Repr, Inhabited

/-- An input record for `initialize`: the `mastered` field may be absent
(`undefined` in JS), in which case `item.mastered || false` makes it `false`. -/
structure InVocabItem where
  french : String
  english : String
  mastered : Option Bool
deriving DecidableEq, Repr

/-- The `this.stats` object of the engine. -/
structure SessionStats where
  totalWords : Nat
  masteredWords : Nat
  currentStreak : Nat
  totalAnswered : Nat
  correctAnswers : Nat
deriving DecidableEq, Repr

/-- The `this.currentWord` object reference: either still aliased into the
current `vocabulary` array (at a known index) or detached from it because the
array was replaced since the reference was taken. -/
inductive CurRef where
  | attached (i : Nat)
  | detached (w : VocabItem)
deriving DecidableEq, Repr

structure QuizEngine where
  vocabulary : List VocabItem
  currentWord : Option CurRef
  currentOptions : List String
  correctAnswer : String
  answeredWords : List String
  stats : SessionStats
  /-- Modelled from the spec: the flip-direction mode declared in spec §2/§4.1
  (`toggleFlipMode`/`getFlipMode`). The application layer (`app.js`) calls
  these methods on the engine but their definition is missing from
  `src/scripts/quizEngine.js`; per spec §4.1 the mode is a pure configuration
  flag on the session. -/
  flipMode : Bool
deriving DecidableEq, Repr

/-- The object returned by `getNextWord` (`{french, options, correctAnswer}`). -/
structure Question where
  french : String
  options : List String
  correctAnswer : String
deriving DecidableEq, Repr

/-- The object returned by `submitAnswer`. -/
structure SubmitResult where
  isCorrect : Bool
  correctAnswer : String
  selectedAnswer : String
  feedback : String
  stats : SessionStats
  wordMastered : Bool
deriving DecidableEq, Repr

/-- The object returned by `getProgress`. -/
structure Progress where
  masteredCount : Nat
  totalCount : Nat
  percentage : Nat
  currentStreak : Nat
  accuracy : Nat
deriving DecidableEq, Repr

/-- The object returned by `exportState` (`{vocabulary, stats, answeredWords,
timestamp}`); the timestamp string is an input here since `new Date()` is
ambient state. -/
structure ExportSnapshot where
  vocabulary : List VocabItem
  stats : SessionStats
  answeredWords : List String
  timestamp : String
deriving DecidableEq, Repr

/-- The argument of `importState`: each field may be absent/`undefined`
(`none`), in which case the corresponding `if (state.field)` guard skips the
assignment.  (Present-but-falsy is impossible for these fields: arrays and
objects are always truthy in JS.) -/
structure StateSnapshot where
  vocabulary : Option (List VocabItem)
  stats : Option SessionStats
  answeredWords : Option (List String)
deriving DecidableEq, Repr

/-- The `new QuizEngine()` constructor state. -/
def mkQuizEngine : QuizEngine :=
  { vocabulary := []
    currentWord := none
    currentOptions := []
    correctAnswer := ""
    answeredWords := []
    stats := { totalWords := 0, masteredWords := 0, currentStreak := 0,
               totalAnswered := 0, correctAnswers := 0 }
    flipMode := false }

/-- One in-place swap `[a[i], a[j]] = [a[j], a[i]]` on the array, as a pure
list operation.  Out-of-range indices leave the list unchanged (the source
only ever uses in-range indices). -/
def listSwap (l : List α) (i j : Nat) : List α :=
  match l[i]?, l[j]? with
  | some a, some b => (l.set i b).set j a
  | _, _ => l

/-- The `for (let i = shuffled.length - 1; i > 0; i--)` loop of
`shuffleArray`, counting `i` down; at position `i` the swap target is
`j = r i % (i + 1)`, the range of `Math.floor(Math.random() * (i + 1))`. -/
def fyLoop (r : Nat → Nat) : Nat → List α → List α
  | 0, l => l
  | i + 1, l => fyLoop r i (listSwap l (i + 1) (r (i + 1) % (i + 2)))

/-- `shuffleArray(array)`: copy, then Fisher–Yates from `length - 1` down. -/
def shuffleArray (array : List α) (r : Nat → Nat) : List α :=
  fyLoop r (array.length - 1) array

/-- `generateOptions(word)`: correct answer first, then up to 3 shuffled
"other" answers, then a final shuffle of the combined list. -/
def generateOptions (vocabulary : List VocabItem) (word : VocabItem)
    (r1 r2 : Nat → Nat) : List String :=
  let options := [word.english]
  let otherAnswers :=
    (vocabulary.filter (fun item => item.english != word.english)).map
      (fun item => item.english)
  let shuffledOthers := shuffleArray otherAnswers r1
  let incorrectOptions := shuffledOthers.take 3
  let allOptions := options ++ incorrectOptions
  shuffleArray allOptions r2

/-- Indices (into the vocabulary array) of the words in
`this.vocabulary.filter(word => !word.mastered)`, in order; the source keeps
the filtered objects themselves, we keep their positions so that the aliasing
mutation in `submitAnswer` can be expressed. -/
def availableIdxsFrom : Nat → List VocabItem → List Nat
  | _, [] => []
  | k, word :: rest =>
    if word.mastered then availableIdxsFrom (k + 1) rest
    else k :: availableIdxsFrom (k + 1) rest

def availableIdxs (vocabulary : List VocabItem) : List Nat :=
  availableIdxsFrom 0 vocabulary

/-- `updateStats()`: recompute `masteredWords` from the vocabulary. -/
def updateStats (e : QuizEngine) : QuizEngine :=
  { e with stats :=
    { e.stats with
      masteredWords := (e.vocabulary.filter (fun word => word.mastered)).length } }

/-- Replacing `this.vocabulary` with a fresh array detaches the
`this.currentWord` alias from the (new) vocabulary; the reference keeps the
old object's value. -/
def detachCurrentWord (e : QuizEngine) : Option CurRef :=
  match e.currentWord with
  | some (CurRef.attached i) => some (CurRef.detached (e.vocabulary.getD i default))
  | c => c

/-- `initialize(vocabulary)`: `none` models the thrown
`Error('Invalid vocabulary data')` for an empty list (a non-array argument is
not representable for a `List` input).  The source then copies each item with
`mastered: item.mastered || false`, sets `totalWords`/`masteredWords`, and
calls `updateStats`. -/
def init (e : QuizEngine) (vocabulary : List InVocabItem) : Option QuizEngine :=
  if vocabulary.length = 0 then none
  else
    let vocab := vocabulary.map (fun item =>
      { french := item.french, english := item.english,
        mastered := item.mastered.getD false })
    some (updateStats
      { e with
        vocabulary := vocab
        currentWord := detachCurrentWord e
        stats := { e.stats with
          totalWords := vocab.length
          masteredWords := (vocab.filter (fun word => word.mastered)).length } })

/-- `getNextWord()`: `none` is the `return null` for "all words mastered".
The random draw `rI % available.length` selects among the non-mastered words;
`r1`/`r2` drive the two shuffles of `generateOptions`. -/
def getNextWord (e : QuizEngine) (rI : Nat) (r1 r2 : Nat → Nat) :
    Option (Question × QuizEngine) :=
  let available := availableIdxs e.vocabulary
  if available.length = 0 then none
  else
    let randomIndex := rI % available.length
    let i := available.getD randomIndex 0
    match e.vocabulary[i]? with
    | none => none
    | some word =>
      let opts := generateOptions e.vocabulary word r1 r2
      some ({ french := word.french, options := opts, correctAnswer := word.english },
        { e with
          currentWord := some (CurRef.attached i)
          currentOptions := opts
          correctAnswer := word.english })

/-- `Set.add`: append if not already present. -/
def addAnswered (answeredWords : List String) (s : String) : List String :=
  if s ∈ answeredWords then answeredWords else answeredWords ++ [s]

/-- `submitAnswer(selectedAnswer)`: `none` models the thrown
`Error('No current word selected')`.  On a correct answer the aliased
`currentWord` object's `mastered` flag is set (reaching the vocabulary array
only while the reference is attached), the counters are bumped, and
`updateStats` then recomputes `masteredWords` from the vocabulary, overriding
the increment; the returned stats snapshot is taken after `updateStats`. -/
def submitAnswer (e : QuizEngine) (selectedAnswer : String) :
    Option (SubmitResult × QuizEngine) :=
  match e.currentWord with
  | none => none
  | some ref =>
    let isCorrect := selectedAnswer == e.correctAnswer
    let stats1 := { e.stats with totalAnswered := e.stats.totalAnswered + 1 }
    let e1 :=
      if isCorrect then
        let curItem :=
          match ref with
          | CurRef.attached i => e.vocabulary.getD i default
          | CurRef.detached w => w
        { e with
          vocabulary :=
            match ref with
            | CurRef.attached i => e.vocabulary.set i { curItem with mastered := true }
            | CurRef.detached _ => e.vocabulary
          currentWord := some
            (match ref with
             | CurRef.attached i => CurRef.attached i
             | CurRef.detached w => CurRef.detached { w with mastered := true })
          answeredWords := addAnswered e.answeredWords curItem.french
          stats := { stats1 with
            masteredWords := stats1.masteredWords + 1
            currentStreak := stats1.currentStreak + 1
            correctAnswers := stats1.correctAnswers + 1 } }
      else
        { e with stats := { stats1 with currentStreak := 0 } }
    let e2 := updateStats e1
    some ({ isCorrect := isCorrect
            correctAnswer := e.correctAnswer
            selectedAnswer := selectedAnswer
            feedback :=
              if isCorrect then "Correct!"
              else "Incorrect. The correct answer is \"" ++ e.correctAnswer ++ "\"."
            stats := e2.stats
            wordMastered := isCorrect }, e2)

/-- `isComplete()`. -/
def isComplete (e : QuizEngine) : Bool :=
  e.stats.masteredWords == e.stats.totalWords

/-- `Math.round(num / den * 100)` on exact rationals:
`floor(100 * num / den + 1 / 2)`. -/
def jsRoundPct (num den : Nat) : Nat :=
  (200 * num + den) / (2 * den)

/-- `getProgress()`. -/
def getProgress (e : QuizEngine) : Progress :=
  { masteredCount := e.stats.masteredWords
    totalCount := e.stats.totalWords
    percentage :=
      if 0 < e.stats.totalWords then jsRoundPct e.stats.masteredWords e.stats.totalWords
      else 0
    currentStreak := e.stats.currentStreak
    accuracy :=
      if 0 < e.stats.totalAnswered then jsRoundPct e.stats.correctAnswers e.stats.totalAnswered
      else 0 }

/-- `resetProgress()`: clear every `mastered` flag (an in-place mutation of
the array's objects, so an attached `currentWord` alias stays attached), zero
the counters other than `totalWords`, clear `answeredWords`, `updateStats`. -/
def resetProgress (e : QuizEngine) : QuizEngine :=
  updateStats
    { e with
      vocabulary := e.vocabulary.map (fun word => { word with mastered := false })
      stats := { e.stats with
        masteredWords := 0, currentStreak := 0, totalAnswered := 0, correctAnswers := 0 }
      answeredWords := [] }

/-- `getVocabulary()` (`[...this.vocabulary]`, a value-level copy). -/
def getVocabulary (e : QuizEngine) : List VocabItem :=
  e.vocabulary

/-- `exportState()`. -/
def exportState (e : QuizEngine) (timestamp : String) : ExportSnapshot :=
  { vocabulary := getVocabulary e
    stats := e.stats
    answeredWords := e.answeredWords
    timestamp := timestamp }

/-- Passing an exported snapshot object to `importState`: all three fields are
present (and truthy, being arrays/objects). -/
def toSnapshot (x : ExportSnapshot) : StateSnapshot :=
  { vocabulary := some x.vocabulary
    stats := some x.stats
    answeredWords := some x.answeredWords }

/-- `importState(state)`: each present field overwrites the corresponding
session field (the stats object is copied verbatim, including `totalWords`),
then `updateStats` re-derives `masteredWords` from the (possibly new)
vocabulary. -/
def importState (e : QuizEngine) (state : StateSnapshot) : QuizEngine :=
  let e1 :=
    match state.vocabulary with
    | some v => { e with vocabulary := v, currentWord := detachCurrentWord e }
    | none => e
  let e2 :=
    match state.stats with
    | some s => { e1 with stats := s }
    | none => e1
  let e3 :=
    match state.answeredWords with
    | some a => { e2 with answeredWords := a }
    | none => e2
  updateStats e3

/-- Modelled from the spec: `toggleFlipMode()` — called from `app.js`
(`quizEngine.toggleFlipMode()`) but missing from `src/scripts/quizEngine.js`;
per spec §4.1 it flips the pure configuration flag and returns the new mode
(read back here via `getFlipMode`), altering neither mastery state nor any
other session field. -/
def toggleFlipMode (e : QuizEngine) : QuizEngine :=
  { e with flipMode := !e.flipMode }

/-- Modelled from the spec: `getFlipMode()` — the session's current
direction flag (spec §4.1). -/
def getFlipMode (e : QuizEngine) : Bool :=
  e.flipMode

/-- The field used as the answer side under direction `flip`
(spec §3: forward answers `target`/english, reverse answers `source`/french). -/
def answerField (flip : Bool) (w : VocabItem) : String :=
  if flip then w.french else w.english

/-- The field used as the prompt side under direction `flip`. -/
def promptField (flip : Bool) (w : VocabItem) : String :=
  if flip then w.english else w.french

/-- Modelled from the spec: the direction-aware `Question` of spec §3
(`prompt`, `options`, `correctAnswer`, `direction`); the direction-aware
engine code is missing from `src/scripts/quizEngine.js` (its caller in
`app.js` consumes such questions). -/
structure DirectedQuestion where
  prompt : String
  options : List String
  correctAnswer : String
  reverse : Bool
deriving DecidableEq, Repr

/-- Modelled from the spec: the distractor generator under a direction flag —
as `generateOptions`, but drawing from the answer-side field selected by the
session's flip mode (spec §4.1 `getNextWord`, "Distractor pool = the `target`
(or `source`, depending on direction) fields of all other items"). -/
def generateOptionsFlip (vocabulary : List VocabItem) (flip : Bool)
    (word : VocabItem) (r1 r2 : Nat → Nat) : List String :=
  let correct := answerField flip word
  let otherAnswers :=
    (vocabulary.filter (fun item => answerField flip item != correct)).map
      (fun item => answerField flip item)
  let incorrectOptions := (shuffleArray otherAnswers r1).take 3
  shuffleArray (correct :: incorrectOptions) r2

/-- Modelled from the spec: the direction-aware `getNextWord` (spec §4.1) —
word selection exactly as in the source `getNextWord`, prompt and answer sides
chosen by the session's flip mode. -/
def getNextWordFlip (e : QuizEngine) (rI : Nat) (r1 r2 : Nat → Nat) :
    Option (DirectedQuestion × QuizEngine) :=
  let available := availableIdxs e.vocabulary
  if available.length = 0 then none
  else
    let randomIndex := rI % available.length
    let i := available.getD randomIndex 0
    match e.vocabulary[i]? with
    | none => none
    | some word =>
      let opts := generateOptionsFlip e.vocabulary e.flipMode word r1 r2
      some ({ prompt := promptField e.flipMode word
              options := opts
              correctAnswer := answerField e.flipMode word
              reverse := e.flipMode },
        { e with
          currentWord := some (CurRef.attached i)
          currentOptions := opts
          correctAnswer := answerField e.flipMode word })

/-- One public mutating call on the session, for stating trace properties.
The random draws of a `next` call are part of the operation. -/
inductive Op where
  | opInit (items : List InVocabItem)
  | opNext (rI : Nat) (r1 r2 : Nat → Nat)
  | opSubmit (s : String)
  | opReset
  | opImport (st : StateSnapshot)

/-- The state after one call; a thrown error (`none` result) leaves the
session state unchanged, as in the source (both throws happen before any
mutation). -/
def applyOp (e : QuizEngine) : Op → QuizEngine
  | Op.opInit items => (init e items).getD e
  | Op.opNext rI r1 r2 =>
    match getNextWord e rI r1 r2 with
    | some (_, e2) => e2
    | none => e
  | Op.opSubmit s =>
    match submitAnswer e s with
    | some (_, e2) => e2
    | none => e
  | Op.opReset => resetProgress e
  | Op.opImport st => importState e st

def runOps (e : QuizEngine) (ops : List Op) : QuizEngine :=
  ops.foldl applyOp e

/-- `true` for the two quiz-flow calls (`getNextWord`/`submitAnswer`). -/
def quizOp : Op → Bool
  | Op.opNext _ _ _ => true
  | Op.opSubmit _ => true
  | _ => false

/-- An operation that cannot desynchronize `totalWords` from the vocabulary:
anything but `importState`, and `importState` only when it supplies both a
vocabulary and a stats object whose `totalWords` is at least the vocabulary
length. -/
def opOK : Op → Bool
  | Op.opImport st =>
    match st.vocabulary, st.stats with
    | some v, some s => decide (v.length ≤ s.totalWords)
    | _, _ => false
  | _ => true

/-- Fixed random draws for concrete evaluations: always draw 0. -/
def rz : Nat → Nat := fun _ => 0

/-- Fixed random draws: at loop position `i` draw `i`, making every
Fisher–Yates swap a self-swap (the identity shuffle). -/
def rid : Nat → Nat := fun i => i

/-- The concrete four-word list of spec §8's scenario, `mastered` absent. -/
def items4 : List InVocabItem :=
  [⟨"chat", "cat", none⟩, ⟨"chien", "dog", none⟩,
   ⟨"maison", "house", none⟩, ⟨"voiture", "car", none⟩]

/-- The session right after `initialize(items4)` on a fresh engine. -/
def engA : QuizEngine :=
  { mkQuizEngine with
    vocabulary :=
      [⟨"chat", "cat", false⟩, ⟨"chien", "dog", false⟩,
       ⟨"maison", "house", false⟩, ⟨"voiture", "car", false⟩]
    stats := ⟨4, 0, 0, 0, 0⟩ }

/-- A session whose two words share one english value: only 0 distinct
distractors exist for either word. -/
def engB : QuizEngine :=
  { mkQuizEngine with
    vocabulary := [⟨"un", "alpha", false⟩, ⟨"deux", "alpha", false⟩]
    stats := ⟨2, 0, 0, 0, 0⟩ }

/-- A session with 4 unique english values over 5 items ("beta" twice). -/
def engC : QuizEngine :=
  { mkQuizEngine with
    vocabulary :=
      [⟨"un", "alpha", false⟩, ⟨"deux", "beta", false⟩, ⟨"trois", "beta", false⟩,
       ⟨"quatre", "gamma", false⟩, ⟨"cinq", "delta", false⟩]
    stats := ⟨5, 0, 0, 0, 0⟩ }

/-- An imported state whose stats claim `totalWords = 0` while its vocabulary
holds one mastered item. -/
def badSt : StateSnapshot :=
  { vocabulary := some [⟨"un", "alpha", true⟩]
    stats := some ⟨0, 9, 0, 0, 0⟩
    answeredWords := none }

/-- An imported state whose `totalWords` is consistent with its vocabulary. -/
def goodSt : StateSnapshot :=
  { vocabulary := some [⟨"un", "alpha", true⟩, ⟨"deux", "beta", false⟩]
    stats := some ⟨2, 7, 0, 0, 0⟩
    answeredWords := some ["un"] }

theorem cons_set_perm (a b : α) :
    ∀ (t : List α) (m : Nat), t[m]? = some b → (b :: t.set m a).Perm (a :: t) := by
  intro t
  induction t with
  | nil => intro m h; simp at h
  | cons y t2 ih =>
    intro m h
    match m with
    | 0 =>
      simp at h
      subst h
      simpa using List.Perm.swap a y t2
    | n + 1 =>
      simp only [List.getElem?_cons_succ] at h
      simp only [List.set_cons_succ]
      exact (List.Perm.swap y b _).trans (((ih n h).cons y).trans (List.Perm.swap a y t2))

theorem set_set_swap_perm (a b : α) :
    ∀ (l : List α) (i j : Nat), l[i]? = some a → l[j]? = some b →
      ((l.set i b).set j a).Perm l := by
  intro l
  induction l with
  | nil => intro i j hi _; simp at hi
  | cons x t ih =>
    intro i j hi hj
    match i, j with
    | 0, 0 =>
      simp at hi hj
      subst hi; subst hj
      simp only [List.set_cons_zero]
      exact List.Perm.refl _
    | 0, m + 1 =>
      simp at hi
      subst hi
      simp only [List.set_cons_zero, List.getElem?_cons_succ] at hj ⊢
      simp only [List.set_cons_succ]
      exact cons_set_perm x b t m hj
    | n + 1, 0 =>
      simp at hj
      subst hj
      simp only [List.getElem?_cons_succ] at hi
      simp only [List.set_cons_succ, List.set_cons_zero]
      exact cons_set_perm x a t n hi
    | n + 1, m + 1 =>
      simp only [List.getElem?_cons_succ] at hi hj
      simp only [List.set_cons_succ]
      exact (ih n m hi hj).cons x

theorem listSwap_perm (l : List α) (i j : Nat) : (listSwap l i j).Perm l := by
  unfold listSwap
  cases hi : l[i]? with
  | none => simp only [hi]; exact List.Perm.refl l
  | some a =>
    cases hj : l[j]? with
    | none => simp only [hi, hj]; exact List.Perm.refl l
    | some b =>
      simp only [hi, hj]
      exact set_set_swap_perm a b l i j hi hj

theorem fyLoop_perm (r : Nat → Nat) : ∀ (n : Nat) (l : List α), (fyLoop r n l).Perm l := by
  intro n
  induction n with
  | zero => intro l; exact List.Perm.refl l
  | succ i ih =>
    intro l
    exact (ih _).trans (listSwap_perm l (i + 1) (r (i + 1) % (i + 2)))

theorem shuffleArray_perm (l : List α) (r : Nat → Nat) : (shuffleArray l r).Perm l :=
  fyLoop_perm r (l.length - 1) l

theorem length_filter_set_true (p : α → Bool) (x : α) (hx : p x = true) :
    ∀ (l : List α) (i : Nat), (l.filter p).length ≤ ((l.set i x).filter p).length := by
  intro l
  induction l with
  | nil => intro i; simp
  | cons a t ih =>
    intro i
    match i with
    | 0 =>
      simp only [List.set_cons_zero, List.filter_cons, hx]
      cases hp : p a <;> simp [Nat.le_succ_of_le]
    | n + 1 =>
      simp only [List.set_cons_succ, List.filter_cons]
      cases hp : p a <;> simp [ih n, Nat.succ_le_succ]

theorem filter_ne_english_length :
    ∀ (l : List VocabItem) (a : String),
      (l.map (fun w => w.english)).Nodup → a ∈ l.map (fun w => w.english) →
      (l.filter (fun it => it.english != a)).length + 1 = l.length := by
  intro l
  induction l with
  | nil => intro a _ ha; simp at ha
  | cons w t ih =>
    intro a hnd ha
    simp only [List.map_cons, List.nodup_cons] at hnd
    obtain ⟨hw, hnd2⟩ := hnd
    simp only [List.map_cons, List.mem_cons] at ha
    cases ha with
    | inl heq =>
      subst heq
      have hkeep : t.filter (fun it => it.english != w.english) = t := by
        apply List.filter_eq_self.mpr
        intro it hit
        exact bne_iff_ne.mpr (fun hcon => hw (hcon ▸ List.mem_map_of_mem (fun v => v.english) hit))
      simp [List.filter_cons, hkeep]
    | inr hmem =>
      have hne : w.english ≠ a := fun hcon => hw (hcon ▸ hmem)
      have hb : (w.english != a) = true := bne_iff_ne.mpr hne
      simp only [List.filter_cons, hb, if_pos, List.length_cons]
      have := ih a hnd2 hmem
      omega

theorem availableIdxsFrom_mem :
    ∀ (l : List VocabItem) (k i : Nat), i ∈ availableIdxsFrom k l →
      ∃ j w, i = k + j ∧ l[j]? = some w ∧ w.mastered = false := by
  intro l
  induction l with
  | nil => intro k i h; simp [availableIdxsFrom] at h
  | cons w rest ih =>
    intro k i h
    unfold availableIdxsFrom at h
    cases hw : w.mastered with
    | true =>
      rw [hw] at h
      simp only [if_pos] at h
      obtain ⟨j, w2, hij, hj, hm⟩ := ih (k + 1) i h
      exact ⟨j + 1, w2, by omega, by simpa using hj, hm⟩
    | false =>
      rw [hw] at h
      simp only [if_neg Bool.false_ne_true, List.mem_cons] at h
      cases h with
      | inl heq => exact ⟨0, w, by omega, by simp, hw⟩
      | inr hmem =>
        obtain ⟨j, w2, hij, hj, hm⟩ := ih (k + 1) i hmem
        exact ⟨j + 1, w2, by omega, by simpa using hj, hm⟩

theorem getNextWord_inv {e : QuizEngine} {rI : Nat} {r1 r2 : Nat → Nat}
    {q : Question} {e2 : QuizEngine}
    (h : getNextWord e rI r1 r2 = some (q, e2)) :
    ∃ i w, e.vocabulary[i]? = some w ∧ w.mastered = false ∧
      q = { french := w.french, options := generateOptions e.vocabulary w r1 r2,
            correctAnswer := w.english } ∧
      e2 = { e with
        currentWord := some (CurRef.attached i)
        currentOptions := generateOptions e.vocabulary w r1 r2
        correctAnswer := w.english } := by
  unfold getNextWord at h
  by_cases hlen : (availableIdxs e.vocabulary).length = 0
  · simp [hlen] at h
  · simp only [hlen, if_neg, if_false] at h
    have hlt : rI % (availableIdxs e.vocabulary).length < (availableIdxs e.vocabulary).length :=
      Nat.mod_lt _ (Nat.pos_of_ne_zero hlen)
    have hmem : (availableIdxs e.vocabulary).getD (rI % (availableIdxs e.vocabulary).length) 0
        ∈ availableIdxs e.vocabulary := by
      rw [List.getD_eq_getElem _ _ hlt]
      exact List.getElem_mem hlt
    obtain ⟨j, w, hij, hj, hm⟩ := availableIdxsFrom_mem e.vocabulary 0 _ hmem
    rw [Nat.zero_add] at hij
    rw [hij, hj] at h
    simp only [Option.some.injEq, Prod.mk.injEq] at h
    obtain ⟨hq, he2⟩ := h
    exact ⟨j, w, hj, hm, hq.symm, he2.symm⟩

theorem submitAnswer_inv {e : QuizEngine} {s : String} {r : SubmitResult} {e2 : QuizEngine}
    (h : submitAnswer e s = some (r, e2)) :
    e2.stats.masteredWords = (e2.vocabulary.filter (fun w => w.mastered)).length ∧
    e2.vocabulary.length = e.vocabulary.length ∧
    e2.stats.totalWords = e.stats.totalWords ∧
    (e.vocabulary.filter (fun w => w.mastered)).length ≤
      (e2.vocabulary.filter (fun w => w.mastered)).length ∧
    e2.currentWord.isSome = true ∧
    e2.stats.totalAnswered = e.stats.totalAnswered + 1 := by
  unfold submitAnswer at h
  cases hcw : e.currentWord with
  | none => rw [hcw] at h; simp at h
  | some ref =>
    rw [hcw] at h
    simp only [Option.some.injEq, Prod.mk.injEq] at h
    obtain ⟨-, he2⟩ := h
    subst he2
    cases hic : s == e.correctAnswer with
    | false =>
      simp only [hic, Bool.false_eq_true, if_neg, if_false, updateStats]
      simp
    | true =>
      cases ref with
      | attached i =>
        simp only [hic, if_pos, updateStats]
        refine ⟨by simp, by simp, by simp, ?_, by simp, by simp⟩
        simpa using length_filter_set_true (fun w => w.mastered) _ rfl e.vocabulary i
      | detached w =>
        simp only [hic, if_pos, updateStats]
        simp

theorem init_inv {e : QuizEngine} {items : List InVocabItem} {e0 : QuizEngine}
    (h : init e items = some e0) :
    e0.stats.masteredWords = (e0.vocabulary.filter (fun w => w.mastered)).length ∧
    e0.stats.totalWords = e0.vocabulary.length := by
  unfold init at h
  by_cases hl : items.length = 0
  · simp [hl] at h
  · simp only [hl, if_neg, if_false, Option.some.injEq] at h
    subst h
    exact ⟨rfl, rfl⟩

theorem statsInv_applyOp {e : QuizEngine} (op : Op)
    (h : e.stats.masteredWords = (e.vocabulary.filter (fun w => w.mastered)).length) :
    (applyOp e op).stats.masteredWords =
      ((applyOp e op).vocabulary.filter (fun w => w.mastered)).length := by
  cases op with
  | opInit items =>
    simp only [applyOp]
    cases hi : init e items with
    | none => exact h
    | some e0 => exact (init_inv hi).1
  | opNext rI r1 r2 =>
    simp only [applyOp]
    cases hn : getNextWord e rI r1 r2 with
    | none => exact h
    | some p =>
      obtain ⟨q, e2⟩ := p
      obtain ⟨i, w, -, -, -, he2⟩ := getNextWord_inv hn
      subst he2
      exact h
  | opSubmit s =>
    simp only [applyOp]
    cases hs : submitAnswer e s with
    | none => exact h
    | some p =>
      obtain ⟨r, e2⟩ := p
      exact (submitAnswer_inv hs).1
  | opReset => rfl
  | opImport st => rfl

theorem lenLe_applyOp {e : QuizEngine} {op : Op}
    (h : e.vocabulary.length ≤ e.stats.totalWords) (hok : opOK op = true) :
    (applyOp e op).vocabulary.length ≤ (applyOp e op).stats.totalWords := by
  cases op with
  | opInit items =>
    simp only [applyOp]
    cases hi : init e items with
    | none => exact h
    | some e0 => exact Nat.le_of_eq (init_inv hi).2.symm
  | opNext rI r1 r2 =>
    simp only [applyOp]
    cases hn : getNextWord e rI r1 r2 with
    | none => exact h
    | some p =>
      obtain ⟨q, e2⟩ := p
      obtain ⟨i, w, -, -, -, he2⟩ := getNextWord_inv hn
      subst he2
      exact h
  | opSubmit s =>
    simp only [applyOp]
    cases hs : submitAnswer e s with
    | none => exact h
    | some p =>
      obtain ⟨r, e2⟩ := p
      obtain ⟨-, hlen, htw, -, -, -⟩ := submitAnswer_inv hs
      rw [hlen, htw]
      exact h
  | opReset =>
    show (resetProgress e).vocabulary.length ≤ (resetProgress e).stats.totalWords
    simp only [resetProgress, updateStats, List.length_map]
    exact h
  | opImport st =>
    simp only [opOK] at hok
    cases hv : st.vocabulary with
    | none => rw [hv] at hok; cases hst : st.stats <;> rw [hst] at hok <;> simp at hok
    | some v =>
      cases hst : st.stats with
      | none => rw [hv, hst] at hok; simp at hok
      | some s =>
        rw [hv, hst] at hok
        have hle : v.length ≤ s.totalWords := of_decide_eq_true hok
        show (importState e st).vocabulary.length ≤ (importState e st).stats.totalWords
        unfold importState
        rw [hv, hst]
        cases st.answeredWords <;> simpa [updateStats] using hle

theorem quizOp_applyOp {e : QuizEngine} {op : Op} (hq : quizOp op = true) :
    (applyOp e op).stats.totalWords = e.stats.totalWords ∧
    (applyOp e op).vocabulary.length = e.vocabulary.length ∧
    (e.vocabulary.filter (fun w => w.mastered)).length ≤
      ((applyOp e op).vocabulary.filter (fun w => w.mastered)).length := by
  cases op with
  | opInit items => simp [quizOp] at hq
  | opReset => simp [quizOp] at hq
  | opImport st => simp [quizOp] at hq
  | opNext rI r1 r2 =>
    simp only [applyOp]
    cases hn : getNextWord e rI r1 r2 with
    | none => exact ⟨rfl, rfl, Nat.le_refl _⟩
    | some p =>
      obtain ⟨q, e2⟩ := p
      obtain ⟨i, w, -, -, -, he2⟩ := getNextWord_inv hn
      subst he2
      exact ⟨rfl, rfl, Nat.le_refl _⟩
  | opSubmit s =>
    simp only [applyOp]
    cases hs : submitAnswer e s with
    | none => exact ⟨rfl, rfl, Nat.le_refl _⟩
    | some p =>
      obtain ⟨r, e2⟩ := p
      obtain ⟨-, hlen, htw, hmono, -, -⟩ := submitAnswer_inv hs
      exact ⟨htw, hlen, hmono⟩

theorem statsInv_runOps (ops : List Op) {e : QuizEngine}
    (h : e.stats.masteredWords = (e.vocabulary.filter (fun w => w.mastered)).length) :
    (runOps e ops).stats.masteredWords =
      ((runOps e ops).vocabulary.filter (fun w => w.mastered)).length := by
  induction ops generalizing e with
  | nil => exact h
  | cons op rest ih => exact ih (statsInv_applyOp op h)

theorem lenLe_runOps (ops : List Op) {e : QuizEngine}
    (h : e.vocabulary.length ≤ e.stats.totalWords)
    (hok : ∀ op ∈ ops, opOK op = true) :
    (runOps e ops).vocabulary.length ≤ (runOps e ops).stats.totalWords := by
  induction ops generalizing e with
  | nil => exact h
  | cons op rest ih =>
    exact ih (lenLe_applyOp h (hok op (List.mem_cons_self op rest)))
      (fun o ho => hok o (List.mem_cons_of_mem op ho))

theorem quizOps_runOps (ops : List Op) {e : QuizEngine}
    (hq : ∀ op ∈ ops, quizOp op = true) :
    (runOps e ops).stats.totalWords = e.stats.totalWords ∧
    (runOps e ops).vocabulary.length = e.vocabulary.length ∧
    (e.vocabulary.filter (fun w => w.mastered)).length ≤
      ((runOps e ops).vocabulary.filter (fun w => w.mastered)).length := by
  induction ops generalizing e with
  | nil => exact ⟨rfl, rfl, Nat.le_refl _⟩
  | cons op rest ih =>
    obtain ⟨h1, h2, h3⟩ := quizOp_applyOp (e := e) (hq op (List.mem_cons_self op rest))
    obtain ⟨h4, h5, h6⟩ := ih (e := applyOp e op) (fun o ho => hq o (List.mem_cons_of_mem op ho))
    exact ⟨h4.trans h1, h5.trans h2, h3.trans h6⟩

theorem filterlen_eq_length_iff (p : α → Bool) (l : List α) :
    ((l.filter p).length = l.length) ↔ ∀ a ∈ l, p a = true := by
  rw [← List.countP_eq_length_filter]
  exact List.countP_eq_length

/-- C1, counterexample: the vocabulary of `engC` has 4 unique english values
(over 5 items, "beta" appearing twice), yet the question `getNextWord`
produces under the identity permutation draws has options
`["alpha", "beta", "beta", "gamma"]`, which are not pairwise distinct. -/
theorem c1_counterexample :
    (engC.vocabulary.map (fun w => w.english)).dedup.length = 4 ∧
    (getNextWord engC 0 rid rid).map (fun p => p.1.options) =
      some ["alpha", "beta", "beta", "gamma"] ∧
    ¬ (["alpha", "beta", "beta", "gamma"] : List String).Nodup := by
  refine ⟨by decide, by decide, by decide⟩

/-- C2, counterexample: starting from the freshly initialized `engA`, after
`getNextWord` and a correct `submitAnswer`, a second `submitAnswer` without an
intervening `getNextWord` does not fail — it returns a result and bumps
`totalAnswered` and `correctAnswers` to 2 (so the current question was not
cleared and counters are updated again). -/
theorem c2_counterexample :
    (((getNextWord engA 0 rz rz).bind (fun p => submitAnswer p.2 "cat")).bind
        (fun p => submitAnswer p.2 "cat")).map
      (fun p => (p.2.stats.totalAnswered, p.2.stats.correctAnswers)) = some (2, 2) := by
  decide

/-- C5, counterexample: in `engB` both words share the english value "alpha",
so 0 distinct distractors exist; `getNextWord` does not fail — it returns a
question whose options list is just `["alpha"]` (length 1, not 4). -/
theorem c5_counterexample :
    (getNextWord engB 0 rz rz).map (fun p => p.1.options) = some ["alpha"] ∧
    (getNextWord engB 0 rz rz).map (fun p => p.1.options.length) ≠ some 4 := by
  refine ⟨by decide, by decide⟩

/-- C6, counterexample: importing `badSt` (one mastered item, but imported
stats claiming `totalWords = 0`) leaves the session with
`masteredWords = 1 > 0 = totalWords`, violating the claimed invariant. -/
theorem c6_counterexample :
    (runOps mkQuizEngine [Op.opImport badSt]).stats.masteredWords = 1 ∧
    (runOps mkQuizEngine [Op.opImport badSt]).stats.totalWords = 0 := by
  refine ⟨by decide, by decide⟩

/-- C7, counterexample: on the constructor state (`totalWords = 0`),
`isComplete()` already returns `true`, so "true iff masteredWords = totalWords
and totalWords > 0" fails — the source compares the two counters only. -/
theorem c7_counterexample :
    isComplete mkQuizEngine = true ∧ mkQuizEngine.stats.totalWords = 0 := by
  refine ⟨by decide, by decide⟩

/-- C7, amended: `isComplete()` returns true iff `masteredWords` equals
`totalWords` (with no `totalWords > 0` requirement: it is also true on a
session with zero words, e.g. the constructor state).  It reads only the two
counters, a pure query. -/
theorem c7_amended_iff (e : QuizEngine) :
    isComplete e = true ↔ e.stats.masteredWords = e.stats.totalWords := by
  simp [isComplete]

/-- C4: after `importState`, `masteredWords` equals the number of items with
`mastered = true` in the session's (imported or retained) vocabulary,
regardless of the `masteredWords` value inside the imported stats — the final
`updateStats()` re-derives it. -/
theorem c4_import_rederives_mastered (e : QuizEngine) (st : StateSnapshot) :
    (importState e st).stats.masteredWords =
      ((importState e st).vocabulary.filter (fun w => w.mastered)).length := rfl

/-- C10: `resetProgress` only clears the `mastered` flags and the counters:
the vocabulary keeps its length, order and per-item `french`/`english` fields,
every `mastered` flag becomes false, `masteredWords`, `currentStreak`,
`totalAnswered` and `correctAnswers` become 0, and `totalWords` is unchanged. -/
theorem map_clear_mastered_field (f : VocabItem → String)
    (hf : ∀ w : VocabItem, f { w with mastered := false } = f w) (l : List VocabItem) :
    (l.map (fun w => ({ w with mastered := false } : VocabItem))).map f = l.map f := by
  rw [List.map_map]
  exact List.map_congr_left (fun a _ => hf a)

theorem filter_clear_mastered_len (l : List VocabItem) :
    ((l.map (fun w => ({ w with mastered := false } : VocabItem))).filter
      (fun w => w.mastered)).length = 0 := by
  induction l with
  | nil => rfl
  | cons a t ih => simp [List.filter_cons, ih]

theorem c10_reset_frame (e : QuizEngine) :
    (resetProgress e).vocabulary =
      e.vocabulary.map (fun w =>
        { french := w.french, english := w.english, mastered := false }) ∧
    (resetProgress e).vocabulary.map (fun w => w.french) =
      e.vocabulary.map (fun w => w.french) ∧
    (resetProgress e).vocabulary.map (fun w => w.english) =
      e.vocabulary.map (fun w => w.english) ∧
    (resetProgress e).vocabulary.length = e.vocabulary.length ∧
    (∀ w ∈ (resetProgress e).vocabulary, w.mastered = false) ∧
    (resetProgress e).stats.totalWords = e.stats.totalWords ∧
    (resetProgress e).stats.masteredWords = 0 ∧
    (resetProgress e).stats.currentStreak = 0 ∧
    (resetProgress e).stats.totalAnswered = 0 ∧
    (resetProgress e).stats.correctAnswers = 0 := by
  refine ⟨rfl, ?_, ?_, by simp [resetProgress, updateStats], ?_, rfl, ?_, rfl, rfl, rfl⟩
  · exact map_clear_mastered_field (fun w => w.french) (fun w => rfl) e.vocabulary
  · exact map_clear_mastered_field (fun w => w.english) (fun w => rfl) e.vocabulary
  · intro w hw
    obtain ⟨a, -, rfl⟩ := List.mem_map.mp hw
    rfl
  · exact filter_clear_mastered_len e.vocabulary

/-- C3 (spec-modelled): `toggleFlipMode`/`getFlipMode` exist on the session;
toggling inverts the mode, leaves the vocabulary (hence every `mastered`
flag) unchanged, and for any subsequent `getNextWord` with the same random
draws the prompt and the correct answer swap fields (the old prompt field
becomes the answer field and vice versa). -/
theorem c3_flip_mode_swaps_direction (e : QuizEngine) (rI : Nat) (r1 r2 : Nat → Nat) :
    getFlipMode (toggleFlipMode e) = !getFlipMode e ∧
    (toggleFlipMode e).vocabulary = e.vocabulary ∧
    (getNextWordFlip (toggleFlipMode e) rI r1 r2).map
        (fun p => (p.1.prompt, p.1.correctAnswer)) =
      (getNextWordFlip e rI r1 r2).map (fun p => (p.1.correctAnswer, p.1.prompt)) := by
  refine ⟨rfl, rfl, ?_⟩
  obtain ⟨voc, cw, co, ca, aw, st, fm⟩ := e
  simp only [getNextWordFlip, toggleFlipMode]
  by_cases hlen : (availableIdxs voc).length = 0
  · simp [hlen]
  · simp only [hlen, if_neg, if_false]
    cases hv : voc[(availableIdxs voc).getD (rI % (availableIdxs voc).length) 0]? with
    | none => simp
    | some w => cases fm <;> simp [promptField, answerField]

/-- C2, amended: `submitAnswer` does not clear the current question — after a
successful call the session still holds a current question, so a second
`submitAnswer` without an intervening `getNextWord` succeeds and increments
`totalAnswered` again; the call fails (throws) exactly when no current
question exists at all. -/
theorem c2_amended_no_clear (e : QuizEngine) (s : String) :
    (e.currentWord = none → submitAnswer e s = none) ∧
    (∀ r e2, submitAnswer e s = some (r, e2) →
      e2.currentWord.isSome = true ∧
      ∀ s2, (submitAnswer e2 s2).map (fun p => p.2.stats.totalAnswered) =
        some (e2.stats.totalAnswered + 1)) := by
  constructor
  · intro h
    unfold submitAnswer
    rw [h]
  · intro r e2 h
    have hinv := submitAnswer_inv h
    refine ⟨hinv.2.2.2.2.1, ?_⟩
    intro s2
    cases h2 : submitAnswer e2 s2 with
    | none =>
      exfalso
      have hsome := hinv.2.2.2.2.1
      unfold submitAnswer at h2
      cases hcw : e2.currentWord with
      | none => rw [hcw] at hsome; simp at hsome
      | some ref => rw [hcw] at h2; simp at h2
    | some p =>
      obtain ⟨r2, e3⟩ := p
      have hinv2 := submitAnswer_inv h2
      show some e3.stats.totalAnswered = some (e2.stats.totalAnswered + 1)
      rw [hinv2.2.2.2.2.2]

/-- C2, witness: on the constructor state there is no current question, so
`submitAnswer` fails. -/
theorem c2_witness : submitAnswer mkQuizEngine "cat" = none :=
  (c2_amended_no_clear mkQuizEngine "cat").1 rfl

/-- C5, amended: when fewer than 3 distinct distractors exist, `getNextWord`
does not fail: it returns a `Question` whose options are the correct answer
plus however many distractors the pool offers — `1 + min 3 pool` entries,
which is fewer than 4 when the pool has fewer than 3 entries — and the
correct answer is always among the options. -/
theorem c5_amended_short_options (e : QuizEngine) (rI : Nat) (r1 r2 : Nat → Nat)
    (q : Question) (e2 : QuizEngine) (h : getNextWord e rI r1 r2 = some (q, e2)) :
    q.options.length =
      1 + min 3 ((e.vocabulary.filter (fun it => it.english != q.correctAnswer)).length) ∧
    q.correctAnswer ∈ q.options := by
  obtain ⟨i, w, hw, hm, hq, -⟩ := getNextWord_inv h
  subst hq
  constructor
  · show (generateOptions e.vocabulary w r1 r2).length = _
    have h1 := (shuffleArray_perm
      ([w.english] ++ (shuffleArray ((e.vocabulary.filter
        (fun item => item.english != w.english)).map (fun item => item.english)) r1).take 3)
      r2).length_eq
    have h2 := (shuffleArray_perm ((e.vocabulary.filter
      (fun item => item.english != w.english)).map (fun item => item.english)) r1).length_eq
    simp only [generateOptions]
    rw [h1]
    simp [List.length_take, h2, Nat.add_comm]
  · show w.english ∈ generateOptions e.vocabulary w r1 r2
    simp only [generateOptions]
    exact (shuffleArray_perm _ r2).mem_iff.mpr (List.mem_cons_self _ _)

/-- C5, witness: applying the amended statement to `engB` (both words share
english "alpha"): the returned options are exactly the correct answer, a
1-element list. -/
theorem c5_witness :
    (["alpha"] : List String).length =
      1 + min 3 ((engB.vocabulary.filter (fun it => it.english != "alpha")).length) ∧
    "alpha" ∈ (["alpha"] : List String) :=
  c5_amended_short_options engB 0 rz rz ⟨"un", ["alpha"], "alpha"⟩
    (⟨engB.vocabulary, some (CurRef.attached 0), ["alpha"], "alpha", [], ⟨2, 0, 0, 0, 0⟩,
      false⟩ : QuizEngine)
    (by decide)

/-- C8: `importState(exportState())` reproduces an equivalent session — under
the §3 invariant that `masteredWords` matches the count of mastered items
(which every mutating operation re-establishes via `updateStats`), the
round-trip leaves `getProgress()` unchanged, and the `masteredWords`
re-derived from the restored items equals the exported mastered count. -/
theorem c8_roundtrip (e : QuizEngine) (ts : String)
    (h : e.stats.masteredWords = (e.vocabulary.filter (fun w => w.mastered)).length) :
    getProgress (importState e (toSnapshot (exportState e ts))) = getProgress e ∧
    ((importState e (toSnapshot (exportState e ts))).vocabulary.filter
      (fun w => w.mastered)).length = (exportState e ts).stats.masteredWords := by
  have hstats : (importState e (toSnapshot (exportState e ts))).stats = e.stats := by
    show ({ e.stats with
      masteredWords := (e.vocabulary.filter (fun word => word.mastered)).length }
        : SessionStats) = e.stats
    rw [← h]
  constructor
  · unfold getProgress
    rw [hstats]
  · show (e.vocabulary.filter (fun w => w.mastered)).length = e.stats.masteredWords
    exact h.symm

/-- C8, witness: the round-trip equalities on the concrete initialized
session `engA`. -/
theorem c8_witness :
    getProgress (importState engA (toSnapshot (exportState engA "2024-01-01"))) =
      getProgress engA ∧
    ((importState engA (toSnapshot (exportState engA "2024-01-01"))).vocabulary.filter
      (fun w => w.mastered)).length = (exportState engA "2024-01-01").stats.masteredWords :=
  c8_roundtrip engA "2024-01-01" (by decide)

/-- C6, amended: `0 ≤ masteredWords ≤ totalWords` holds after every sequence
of `initialize`, `getNextWord`, `submitAnswer`, `resetProgress` calls, and
`importState` calls whose snapshot supplies both a vocabulary and a stats
object with `totalWords` at least the vocabulary length; an `importState`
whose imported `totalWords` undercounts the imported vocabulary breaks the
upper bound, because the source trusts the imported `totalWords` verbatim
(the lower bound is automatic for the natural-number counters). -/
theorem c6_amended_invariant (ops : List Op) (hok : ∀ op ∈ ops, opOK op = true) :
    (runOps mkQuizEngine ops).stats.masteredWords ≤
      (runOps mkQuizEngine ops).stats.totalWords := by
  have h1 := statsInv_runOps ops (e := mkQuizEngine) rfl
  have h2 := lenLe_runOps ops (e := mkQuizEngine) (Nat.le_refl 0) hok
  rw [h1]
  exact Nat.le_trans (List.length_filter_le _ _) h2

/-- C6, witness: the invariant after a consistent import followed by a
reset. -/
theorem c6_witness :
    (runOps mkQuizEngine [Op.opImport goodSt, Op.opReset]).stats.masteredWords ≤
      (runOps mkQuizEngine [Op.opImport goodSt, Op.opReset]).stats.totalWords :=
  c6_amended_invariant [Op.opImport goodSt, Op.opReset] (by decide)

/-- C9: from any successfully initialized session, along any sequence of
`getNextWord`/`submitAnswer` calls `masteredWords` never decreases (extending
the sequence can only raise it), and at every point `isComplete()` is true
exactly when every vocabulary item's `mastered` flag is true. -/
theorem c9_monotone_complete (items : List InVocabItem) (e0 : QuizEngine)
    (h0 : init mkQuizEngine items = some e0) (ops ops2 : List Op)
    (hq : ∀ op ∈ ops ++ ops2, quizOp op = true) :
    (runOps e0 ops).stats.masteredWords ≤ (runOps e0 (ops ++ ops2)).stats.masteredWords ∧
    (isComplete (runOps e0 (ops ++ ops2)) = true ↔
      ∀ w ∈ (runOps e0 (ops ++ ops2)).vocabulary, w.mastered = true) := by
  have hI := init_inv h0
  have hq2 : ∀ op ∈ ops2, quizOp op = true :=
    fun op ho => hq op (List.mem_append_right _ ho)
  have happ : runOps e0 (ops ++ ops2) = runOps (runOps e0 ops) ops2 :=
    List.foldl_append _ _ _ _
  have hminv1 := statsInv_runOps ops (e := e0) hI.1
  have hminv2 := statsInv_runOps (ops ++ ops2) (e := e0) hI.1
  constructor
  · rw [hminv1, hminv2, happ]
    exact (quizOps_runOps ops2 (e := runOps e0 ops) hq2).2.2
  · have htw := (quizOps_runOps (ops ++ ops2) (e := e0) hq).1
    have hvlen := (quizOps_runOps (ops ++ ops2) (e := e0) hq).2.1
    have hbeq : isComplete (runOps e0 (ops ++ ops2)) = true ↔
        (runOps e0 (ops ++ ops2)).stats.masteredWords =
          (runOps e0 (ops ++ ops2)).stats.totalWords := by
      simp [isComplete]
    rw [hbeq, hminv2, htw, hI.2, ← hvlen]
    exact filterlen_eq_length_iff (fun w => w.mastered) (runOps e0 (ops ++ ops2)).vocabulary

/-- C9, witness: after asking and correctly answering one question on the
four-word session, the mastered counter between the two observation points is
non-decreasing. -/
theorem c9_witness :
    (runOps engA [Op.opNext 0 rz rz]).stats.masteredWords ≤
      (runOps engA ([Op.opNext 0 rz rz] ++ [Op.opSubmit "cat"])).stats.masteredWords :=
  (c9_monotone_complete items4 engA (by decide) [Op.opNext 0 rz rz] [Op.opSubmit "cat"]
    (by decide)).1

/-- C1, amended: for a vocabulary whose english values are pairwise distinct
(and with at least 4 items — merely 4 unique values among possibly duplicated
ones is not enough, see the counterexample), every question produced by
`getNextWord` has exactly 4 pairwise-distinct options, exactly one of which
equals `correctAnswer`. -/
theorem c1_amended_four_unique_options (e : QuizEngine) (rI : Nat) (r1 r2 : Nat → Nat)
    (q : Question) (e2 : QuizEngine)
    (hnd : (e.vocabulary.map (fun w => w.english)).Nodup)
    (hlen : 4 ≤ e.vocabulary.length)
    (h : getNextWord e rI r1 r2 = some (q, e2)) :
    q.options.length = 4 ∧ q.options.Nodup ∧ q.options.count q.correctAnswer = 1 := by
  obtain ⟨i, w, hw, hm, hq, -⟩ := getNextWord_inv h
  subst hq
  have hwmem : w ∈ e.vocabulary := by
    obtain ⟨hb, rfl⟩ := List.getElem?_eq_some.mp hw
    exact List.getElem_mem hb
  have hengmem : w.english ∈ e.vocabulary.map (fun v => v.english) :=
    List.mem_map_of_mem _ hwmem
  have hothersnd :
      ((e.vocabulary.filter (fun item => item.english != w.english)).map
        (fun item => item.english)).Nodup :=
    hnd.sublist ((List.filter_sublist e.vocabulary).map (fun v => v.english))
  have hnotmem : w.english ∉
      (e.vocabulary.filter (fun item => item.english != w.english)).map
        (fun item => item.english) := by
    intro hmem
    obtain ⟨it, hit, heq⟩ := List.mem_map.mp hmem
    exact (bne_iff_ne.mp (List.mem_filter.mp hit).2) heq
  have hotherslen :
      ((e.vocabulary.filter (fun item => item.english != w.english)).map
        (fun item => item.english)).length + 1 = e.vocabulary.length := by
    rw [List.length_map]
    exact filter_ne_english_length e.vocabulary w.english hnd hengmem
  have hshufperm := shuffleArray_perm
    ((e.vocabulary.filter (fun item => item.english != w.english)).map
      (fun item => item.english)) r1
  have hshufnd := hshufperm.symm.nodup hothersnd
  have htknd : ((shuffleArray ((e.vocabulary.filter
      (fun item => item.english != w.english)).map (fun item => item.english)) r1).take
        3).Nodup :=
    hshufnd.sublist (List.take_sublist 3 _)
  have htklen : ((shuffleArray ((e.vocabulary.filter
      (fun item => item.english != w.english)).map (fun item => item.english)) r1).take
        3).length = 3 := by
    rw [List.length_take, hshufperm.length_eq]
    omega
  have htknotmem : w.english ∉ (shuffleArray ((e.vocabulary.filter
      (fun item => item.english != w.english)).map (fun item => item.english)) r1).take 3 :=
    fun hmem => hnotmem (hshufperm.mem_iff.mp (List.mem_of_mem_take hmem))
  have hallnd : (w.english :: (shuffleArray ((e.vocabulary.filter
      (fun item => item.english != w.english)).map (fun item => item.english)) r1).take
        3).Nodup :=
    List.nodup_cons.mpr ⟨htknotmem, htknd⟩
  have hfinperm := shuffleArray_perm
    ([w.english] ++ (shuffleArray ((e.vocabulary.filter
      (fun item => item.english != w.english)).map (fun item => item.english)) r1).take 3) r2
  have hfinnd : (generateOptions e.vocabulary w r1 r2).Nodup :=
    hfinperm.symm.nodup hallnd
  have hfinmem : w.english ∈ generateOptions e.vocabulary w r1 r2 :=
    hfinperm.mem_iff.mpr (List.mem_cons_self _ _)
  refine ⟨?_, hfinnd, List.count_eq_one_of_mem hfinnd hfinmem⟩
  show (generateOptions e.vocabulary w r1 r2).length = 4
  simp only [generateOptions]
  rw [hfinperm.length_eq]
  simp [htklen]

/-- C1, witness: the four-word all-distinct session `engA` yields (under the
all-zero draws) the options `["house", "car", "dog", "cat"]` — 4 distinct
strings containing the correct answer "cat" exactly once. -/
theorem c1_witness :
    (["house", "car", "dog", "cat"] : List String).length = 4 ∧
    (["house", "car", "dog", "cat"] : List String).Nodup ∧
    (["house", "car", "dog", "cat"] : List String).count "cat" = 1 :=
  c1_amended_four_unique_options engA 0 rz rz ⟨"chat", ["house", "car", "dog", "cat"], "cat"⟩
    (⟨engA.vocabulary, some (CurRef.attached 0), ["house", "car", "dog", "cat"], "cat", [],
      ⟨4, 0, 0, 0, 0⟩, false⟩ : QuizEngine)
    (by decide) (by decide) (by decide)
